import Mathlib

/-!
Shallow embedding of the key-transparency client verifier, mutation builder
and monitor core, translated from the Go sources:

- core/client/kt/verify.go (Verifier.VerifyGetEntryResponse, and the grpcc
  Client: GetEntry, ListHistory, Update, Retry),
- core/mutator/entry/mutation.go (Mutation.ReplaceAuthorizedKeys,
  Mutation.SerializeAndSign, Mutation.sign),
- core/monitor/monitor.go (Monitor.ProcessLoop, Monitor.VerifyEpochMutations).

Cryptographic primitives (commitments.Verify, the VRF, the sparse-map and log
proof verifiers, object signing) live outside these files; they are modelled
as opaque function fields of a `Verifier` / environment record, exactly as the
Go code holds them behind interfaces.  Machine integers (int64, int32) are
modelled as `Int`; byte strings as `List Nat`.
-/

namespace KT

/-- Byte strings (Go `[]byte`); the nil slice and the empty slice are
identified, as `bytes.Equal` and the proto getters do. -/
abbrev Bytes := List Nat

/-- Opaque digital signature value. -/
abbrev Sig := Nat

/-- Opaque public key (keyspb.PublicKey). -/
abbrev PubKey := Nat

/-- trillian.SignedLogRoot: signed root of the append-only log. -/
structure SignedLogRoot where
  logId : Int
  treeSize : Int
  rootHash : Bytes
  timestamp : Int
deriving DecidableEq

/-- trillian.SignedMapRoot: signed snapshot of the sparse map at a revision. -/
structure SignedMapRoot where
  mapId : Int
  mapRevision : Int
  rootHash : Bytes
  timestamp : Int
  metadata : Bytes
  signature : Option Bytes
deriving DecidableEq

/-- pb.Entry: the unit of state for a user in the sparse map. -/
structure Entry where
  index : Bytes
  commitment : Bytes
  authorizedKeys : List PubKey
  previous : Bytes
  signatures : List (String × Sig)
deriving DecidableEq

/-- pb.Committed: the commitment opening `(nonce, data)`; the nonce is held
in the proto field named `key`. -/
structure Committed where
  key : Bytes
  data : Bytes
deriving DecidableEq

/-- trillian.MapLeafInclusion, flattened: the leaf value bytes together with
the sparse-tree sibling hashes.  (`GetLeaf().GetLeafValue()` on a nil leaf
and a present leaf with nil bytes both yield the empty byte string, so the
inner leaf message is collapsed into its value.) -/
structure MapLeafInclusion where
  leafValue : Bytes
  inclusion : List Bytes
deriving DecidableEq

/-- pb.GetEntryResponse.  `smr` is modelled as a required field: the Go code
dereferences `*in.GetSmr()` unconditionally at the signature step, so a
response with a nil SMR crashes the client rather than returning an error. -/
structure GetEntryResponse where
  vrfProof : Bytes
  committed : Option Committed
  leafProof : Option MapLeafInclusion
  smr : SignedMapRoot
  logRoot : Option SignedLogRoot
  logConsistency : List Bytes
  logInclusion : List Bytes
deriving DecidableEq

/-- `in.GetLeafProof().GetLeaf().GetLeafValue()`: nil-safe proto getter
chain, defaulting to the empty byte string. -/
def GetEntryResponse.leafValue (r : GetEntryResponse) : Bytes :=
  (r.leafProof.map fun lp => lp.leafValue).getD []

/-- The kt.Verifier of core/client/kt/verify.go.  Its cryptographic
collaborators (entry.FromLeafValue, commitments.Verify, the VRF public key,
merkle.VerifyMapInclusionProof, tcrypto.VerifyObject and the trillian
LogVerifier) are code outside the embedded files and are carried as opaque
function fields, mirroring the interface fields of the Go struct. -/
structure Verifier where
  fromLeafValue : Bytes → Except Unit (Option Entry)
  commitVerifyOk : String → String → Bytes → Bytes → Bytes → Bool
  vrfIndex : Bytes → String → String → String → Option Bytes
  mapInclusionOk : Int → Bytes → Bytes → Bytes → List Bytes → Bool
  smrSigOk : SignedMapRoot → Option Bytes → Bool
  rootOk : SignedLogRoot → Option SignedLogRoot → List Bytes → Bool
  inclusionAtIndexOk : Option SignedLogRoot → Bytes → Int → List Bytes → Bool
  marshalSMR : SignedMapRoot → Bytes

/-- Error tags for the verification steps of VerifyGetEntryResponse, one per
return site of the Go function. -/
inductive VerifyErr where
  | decodeFailed
  | commitmentMismatch
  | vrfInvalid
  | nilProof
  | sparseProofInvalid
  | smrSigInvalid
  | logConsistencyInvalid
  | logInclusionInvalid
deriving DecidableEq

/-- Steps 3 to 7 of Verifier.VerifyGetEntryResponse (verify.go lines
96 to 149): VRF, sparse-map inclusion, SMR signature, log-root consistency
and log inclusion of the SMR. -/
def verifyAfterCommitment (v : Verifier) (domainID appID userID : String)
    (trusted : SignedLogRoot) (resp : GetEntryResponse) : Except VerifyErr Unit :=
  match v.vrfIndex resp.vrfProof domainID appID userID with
  | none => .error .vrfInvalid
  | some index =>
    match resp.leafProof with
    | none => .error .nilProof
    | some lp =>
      if v.mapInclusionOk resp.smr.mapId index lp.leafValue resp.smr.rootHash lp.inclusion then
        if v.smrSigOk { resp.smr with signature := none } resp.smr.signature then
          if v.rootOk trusted resp.logRoot resp.logConsistency then
            -- verify.go line 135: `trusted = in.GetLogRoot()` rebinds the
            -- local pointer variable; from here on the body reads the
            -- response root, not the caller cell.
            let trustedLocal := resp.logRoot
            if v.inclusionAtIndexOk trustedLocal (v.marshalSMR resp.smr)
                resp.smr.mapRevision resp.logInclusion then
              .ok ()
            else .error .logInclusionInvalid
          else .error .logConsistencyInvalid
        else .error .smrSigInvalid
      else .error .sparseProofInvalid

/-- The error value computed by Verifier.VerifyGetEntryResponse (verify.go
lines 75 to 150): decode the leaf (step 1), open the commitment when
`committed` is present (step 2), then run the remaining steps. -/
def verifyGetEntryResult (v : Verifier) (domainID appID userID : String)
    (trusted : SignedLogRoot) (resp : GetEntryResponse) :
    Except VerifyErr Unit :=
  match v.fromLeafValue resp.leafValue with
  | .error _ => .error .decodeFailed
  | .ok e =>
    match resp.committed with
    | some c =>
      if v.commitVerifyOk userID appID ((e.map Entry.commitment).getD [])
          c.data c.key then
        verifyAfterCommitment v domainID appID userID trusted resp
      else .error .commitmentMismatch
    | none => verifyAfterCommitment v domainID appID userID trusted resp

/-- A call of Verifier.VerifyGetEntryResponse, observed at the caller: the
returned error value together with the caller's trusted-root cell after the
call.  The Go function receives `trusted *trillian.SignedLogRoot` by value;
the body never stores through that pointer (line 135 reassigns only the
local copy of it), so the caller cell, returned here as the second
component, is unchanged on every path. -/
def verifyGetEntryResponse (v : Verifier) (domainID appID userID : String)
    (trusted : SignedLogRoot) (resp : GetEntryResponse) :
    Except VerifyErr Unit × SignedLogRoot :=
  (verifyGetEntryResult v domainID appID userID trusted resp, trusted)

/-- A concrete non-empty entry whose commitment field is empty, used as the
decoding of the one-byte leaf `[1]` below. -/
def entry1 : Entry :=
  { index := [0], commitment := [], authorizedKeys := [7], previous := [],
    signatures := [] }

/-- A concrete leaf decoder: the empty leaf denotes the empty entry (decoded
as `none`, as entry.FromLeafValue returns a nil entry for a nil leaf), the
leaf `[1]` decodes to `entry1`, and any other leaf is malformed. -/
def decodeByte (b : Bytes) : Except Unit (Option Entry) :=
  match b with
  | [] => .ok none
  | [1] => .ok (some entry1)
  | _ => .error ()

/-- A concrete verifier whose cryptographic checks all accept; used to
evaluate the control flow of the verifier on concrete responses. -/
def trivVerifier : Verifier :=
  { fromLeafValue := decodeByte
    commitVerifyOk := fun _ _ _ _ _ => true
    vrfIndex := fun _ _ _ _ => some [0]
    mapInclusionOk := fun _ _ _ _ _ => true
    smrSigOk := fun _ _ => true
    rootOk := fun _ _ _ => true
    inclusionAtIndexOk := fun _ _ _ _ => true
    marshalSMR := fun _ => [] }

/-- A trusted log root at tree size 0 (bootstrap). -/
def trusted0 : SignedLogRoot :=
  { logId := 1, treeSize := 0, rootHash := [], timestamp := 0 }

/-- A later log root, distinct from `trusted0`. -/
def logRoot1 : SignedLogRoot :=
  { logId := 1, treeSize := 5, rootHash := [9], timestamp := 5 }

/-- A concrete signed map root. -/
def smr0 : SignedMapRoot :=
  { mapId := 3, mapRevision := 2, rootHash := [4], timestamp := 0,
    metadata := [], signature := some [8] }

/-- A proof-of-absence response carrying the advanced log root `logRoot1`. -/
def respAdvance : GetEntryResponse :=
  { vrfProof := [], committed := none,
    leafProof := some { leafValue := [], inclusion := [] },
    smr := smr0, logRoot := some logRoot1, logConsistency := [],
    logInclusion := [] }

/-- A response whose leaf bytes do not decode. -/
def respBadLeaf : GetEntryResponse :=
  { respAdvance with leafProof := some { leafValue := [2], inclusion := [] } }

/-- A response with no `committed` whose leaf decodes to the non-empty entry
`entry1`, which carries an empty commitment field. -/
def respPresentNoCommit : GetEntryResponse :=
  { respAdvance with leafProof := some { leafValue := [1], inclusion := [] } }

/-! ## Mutation builder (core/mutator/entry/mutation.go) -/

/-- Error tags of the mutation-builder operations. -/
inductive MutErr where
  | missingKey
  | unauthorized
  | mutateRejected
deriving DecidableEq

/-- A signatures.Signer: a key id and a deterministic signing function over
entries.  (The Go Sign method can also fail on entropy exhaustion; signing is
modelled as total.) -/
structure Signer where
  keyID : String
  sign : Entry → Sig

/-- The entry.Mutation builder state: identifiers, the committed
`(nonce, data)` pair, the previous entry (nil before SetPrevious, or when the
previous leaf was empty) and the entry under construction. -/
structure Mutation where
  domainID : String
  appID : String
  userID : String
  data : Bytes
  nonce : Bytes
  prevEntry : Option Entry
  entry : Entry
deriving DecidableEq

/-- pb.UpdateEntryRequest, flattened: the EntryUpdate submessage carries the
signed entry (`mutation`) and the Committed pair. -/
structure UpdateEntryRequest where
  domainId : String
  userId : String
  appId : String
  firstTreeSize : Int
  mutation : Entry
  committedKey : Bytes
  committedData : Bytes
deriving DecidableEq

/-- Modelled from the spec: `verifyKeys` (the authorization rule of spec
section 4.8) and `Mutate` (the applier of spec section 4.9) are code of this
repository outside src/ (only their caller Mutation.SerializeAndSign is in
src/).  They are carried as opaque boolean predicates: `verifyKeysOk` takes
the previous entry's authorized keys, the new entry's authorized keys, the
new entry with its signatures field cleared, and the produced signature set;
`mutateOk` takes the previous entry and the signed new entry. -/
structure EntryEnv where
  verifyKeysOk : List PubKey → List PubKey → Entry → List (String × Sig) → Bool
  mutateOk : Option Entry → Entry → Bool

/-- Go map insertion `sigs[k] = s`: replace an existing binding of `k`, else
add one. -/
def insertSig : List (String × Sig) → String → Sig → List (String × Sig)
  | [], k, s => [(k, s)]
  | (k0, s0) :: rest, k, s =>
    if k0 = k then (k, s) :: rest else (k0, s0) :: insertSig rest k s

/-- The signature map built by Mutation.sign: each signer signs the cleared
entry and is stored under its key id. -/
def buildSigs (signers : List Signer) (cleared : Entry) : List (String × Sig) :=
  signers.foldl (fun acc sg => insertSig acc sg.keyID (sg.sign cleared)) []

/-- Mutation.sign (mutation.go lines 149 to 162): clear the entry's
signatures, sign the cleared entry with each signer, and store the signature
map back into the entry. -/
def Mutation.signedEntry (m : Mutation) (signers : List Signer) : Entry :=
  let cleared := { m.entry with signatures := [] }
  { cleared with signatures := buildSigs signers cleared }

/-- `m.prevEntry.GetAuthorizedKeys()`: nil-safe getter. -/
def Mutation.prevAuthorizedKeys (m : Mutation) : List PubKey :=
  (m.prevEntry.map Entry.authorizedKeys).getD []

/-- Mutation.SerializeAndSign (mutation.go lines 111 to 146): sign the entry,
check authorization of the signature set (over the entry with signatures
cleared) against the previous entry's authorized keys, dry-run the mutation
with Mutate, and emit the UpdateEntryRequest. -/
def Mutation.serializeAndSign (m : Mutation) (env : EntryEnv)
    (signers : List Signer) (trustedTreeSize : Int) :
    Except MutErr UpdateEntryRequest :=
  let mutation := m.signedEntry signers
  let skv := { mutation with signatures := [] }
  if env.verifyKeysOk m.prevAuthorizedKeys mutation.authorizedKeys skv
      mutation.signatures then
    if env.mutateOk m.prevEntry mutation then
      .ok { domainId := m.domainID, userId := m.userID, appId := m.appID,
            firstTreeSize := trustedTreeSize, mutation := mutation,
            committedKey := m.nonce, committedData := m.data }
    else .error .mutateRejected
  else .error .unauthorized

/-- Mutation.ReplaceAuthorizedKeys (mutation.go lines 102 to 108), in
state-passing form: the second component is the builder state after the
call. -/
def Mutation.replaceAuthorizedKeys (m : Mutation) (pubkeys : List PubKey) :
    Except MutErr Unit × Mutation :=
  if pubkeys.length < 1 then (.error .missingKey, m)
  else (.ok (), { m with entry := { m.entry with authorizedKeys := pubkeys } })

/-! ## The update retry loop (Client.Update, verify.go lines 380 to 411) -/

/-- The outcome of one call of Client.Retry: success, the sentinel ErrRetry
(compared by identity in `err == ErrRetry`), or any other error. -/
inductive AttemptResult where
  | ok
  | retry
  | err (code : Nat)
deriving DecidableEq

/-- The retry loop of Client.Update after the mutation has been built:
`attempt i` is the result of the i-th call of c.Retry, `i` counts the
re-attempts already made (each re-attempt is preceded by one RetryDelay
sleep), and `current` is the result of the most recent attempt.  Go:
`for i := 0; err == ErrRetry && i < c.RetryCount; i++ { sleep; err = retry }`.
The `fuel` argument only bounds the recursion; along every reachable call
`retryCount ≤ i + fuel`, so the fuel-exhausted exit coincides with the
loop's own exit (`i < retryCount` is then false). -/
def updateLoopAux (attempt : Nat → AttemptResult) (retryCount : Int) :
    Nat → Nat → AttemptResult → AttemptResult × Nat
  | 0, i, current => (current, i)
  | fuel + 1, i, current =>
    if current = .retry ∧ (i : Int) < retryCount then
      updateLoopAux attempt retryCount fuel (i + 1) (attempt (i + 1))
    else (current, i)

/-- Client.Update's submission phase: the initial attempt followed by the
retry loop.  Returns the error value Update returns and the number of
re-attempts (equal to the number of RetryDelay sleeps performed). -/
def clientUpdate (attempt : Nat → AttemptResult) (retryCount : Int) :
    AttemptResult × Nat :=
  updateLoopAux attempt retryCount retryCount.toNat 0 (attempt 0)

/-! ## Client.ListHistory (verify.go lines 326 to 376)

The server is modelled as the ordered list of responses to the client's
successive ListEntryHistory calls; `none` stands for a transport error, and
an exhausted list also stands for a failed call (the Go loop would issue
another request).  The Start and PageSize request fields are functions of the
loop state that do not influence the oracle list, so they are not threaded. -/

/-- One pb.ListEntryHistoryResponse: a page of per-epoch GetEntryResponses
and the next start epoch (0 meaning no more data). -/
structure PageResponse where
  values : List GetEntryResponse
  nextStart : Int
deriving DecidableEq

/-- Error tags for ListHistory. -/
inductive HistErr where
  | badStart
  | rpc
  | verify (e : VerifyErr)
  | incomplete
deriving DecidableEq

/-- The profile bytes of one epoch: `v.GetCommitted().GetData()`, the empty
byte string when `committed` is absent. -/
def epochProfile (r : GetEntryResponse) : Bytes :=
  (r.committed.map Committed.data).getD []

/-- The inner loop over one page's values (verify.go lines 347 to 364):
verify each response, then append `(smr, profile)` unless the profile equals
the running one.  The trusted root is passed unthreaded because
verifyGetEntryResponse returns the caller cell unchanged on every path. -/
def processValues (v : Verifier) (domainID appID userID : String)
    (trusted : SignedLogRoot) :
    List GetEntryResponse → Bytes → List (SignedMapRoot × Bytes) →
    Except VerifyErr (Bytes × List (SignedMapRoot × Bytes))
  | [], cur, profs => .ok (cur, profs)
  | r :: rest, cur, profs =>
    match (verifyGetEntryResponse v domainID appID userID trusted r).1 with
    | .error e => .error e
    | .ok _ =>
      let profile := epochProfile r
      if profile = cur then
        processValues v domainID appID userID trusted rest cur profs
      else
        processValues v domainID appID userID trusted rest profile
          (profs ++ [(r.smr, profile)])

/-- The paging loop of ListHistory: `received` is epochsReceived, `want` is
epochsWant = end - start + 1, `cur` is currentProfile (initially nil) and
`profs` the profiles collected so far.  After the loop the Go code returns
ErrIncomplete when received < want, else the collected map. -/
def listHistoryLoop (v : Verifier) (domainID appID userID : String)
    (trusted : SignedLogRoot) (want : Int) :
    List (Option PageResponse) → Int → Bytes → List (SignedMapRoot × Bytes) →
    Except HistErr (List (SignedMapRoot × Bytes))
  | [], received, _, profs =>
    if received < want then .error .rpc else .ok profs
  | none :: _, received, _, profs =>
    if received < want then .error .rpc else .ok profs
  | some page :: rest, received, cur, profs =>
    if received < want then
      match processValues v domainID appID userID trusted page.values cur profs with
      | .error e => .error (.verify e)
      | .ok (cur2, profs2) =>
        if page.nextStart = 0 then
          if received + (page.values.length : Int) < want then .error .incomplete
          else .ok profs2
        else
          listHistoryLoop v domainID appID userID trusted want rest
            (received + (page.values.length : Int)) cur2 profs2
    else .ok profs

/-- Client.ListHistory: reject a negative start, then run the paging loop
with epochsWant = endEpoch - start + 1. -/
def listHistory (v : Verifier) (domainID appID userID : String)
    (trusted : SignedLogRoot) (start endEpoch : Int)
    (pages : List (Option PageResponse)) :
    Except HistErr (List (SignedMapRoot × Bytes)) :=
  if start < 0 then .error .badStart
  else listHistoryLoop v domainID appID userID trusted (endEpoch - start + 1)
    pages 0 [] []

/-- Specification-side compression: keep one `(smr, profile)` pair per point
at which the profile changes, starting from the running profile `cur`. -/
def changePoints (cur : Bytes) :
    List (SignedMapRoot × Bytes) → List (SignedMapRoot × Bytes)
  | [] => []
  | (s, p) :: rest =>
    if p = cur then changePoints cur rest else (s, p) :: changePoints p rest

/-- The running profile after a list of epochs: the profile of the last
epoch, or `cur` when there is none. -/
def runningProfile (cur : Bytes) (ps : List (SignedMapRoot × Bytes)) : Bytes :=
  ps.foldl (fun _ sp => sp.2) cur

/-- Whether every response in a list passes verification. -/
def allVerify (v : Verifier) (domainID appID userID : String)
    (trusted : SignedLogRoot) : List GetEntryResponse → Bool
  | [] => true
  | r :: rest =>
    match (verifyGetEntryResponse v domainID appID userID trusted r).1 with
    | .ok _ => allVerify v domainID appID userID trusted rest
    | .error _ => false

/-- The per-epoch responses the paging loop consumes before it stops. -/
def consumedValues (want : Int) :
    List (Option PageResponse) → Int → List GetEntryResponse
  | [], _ => []
  | none :: _, _ => []
  | some page :: rest, received =>
    if received < want then
      page.values ++
        (if page.nextStart = 0 then []
         else consumedValues want rest (received + (page.values.length : Int)))
    else []

/-- The final value of epochsReceived when the paging loop stops. -/
def consumedCount (want : Int) : List (Option PageResponse) → Int → Int
  | [], received => received
  | none :: _, received => received
  | some page :: rest, received =>
    if received < want then
      (if page.nextStart = 0 then received + (page.values.length : Int)
       else consumedCount want rest (received + (page.values.length : Int)))
    else received

/-- A run of the paging loop is good when it never hits a transport failure
or a verification failure: every page the loop asks for is present and all
of its values verify. -/
def goodPages (v : Verifier) (domainID appID userID : String)
    (trusted : SignedLogRoot) (want : Int) :
    List (Option PageResponse) → Int → Bool
  | [], received => if received < want then false else true
  | none :: _, received => if received < want then false else true
  | some page :: rest, received =>
    if received < want then
      allVerify v domainID appID userID trusted page.values &&
        (if page.nextStart = 0 then true
         else goodPages v domainID appID userID trusted want rest
           (received + (page.values.length : Int)))
    else true

/-! ## Monitor core (core/monitor/monitor.go) -/

/-- Opaque mutation-with-proof (pb.MutationProof). -/
abbrev MutationProof := Nat

/-- pb.Epoch, reduced to the field the processing loop reads. -/
structure Epoch where
  smr : SignedMapRoot
deriving DecidableEq

/-- monitor.EpochPair: two adjacent epochs. -/
structure EpochPair where
  A : Epoch
  B : Epoch
deriving DecidableEq

/-- monitorstorage.Result, without the wall-clock Seen field: the
countersigned SMR on success, the verification errors on failure.  Error
values are opaque codes. -/
structure MonitorResult where
  smr : Option SignedMapRoot
  errors : List Nat
deriving DecidableEq

/-- The monitor's collaborators outside the embedded file:
`epochMutations` is the mutationclient fetch (which may fail and abort the
loop); `verifyEpoch` and `verifyMutations` are modelled from the spec
(sections 4.7 and 4.10; their code is in the repository outside src/) as
opaque error-list producers in the argument order of the Go calls; and
`signMapRoot` countersigns an SMR with the monitor's key (modelled total). -/
structure MonitorEnv where
  epochMutations : Epoch → Except Unit (List MutationProof)
  verifyEpoch : Epoch → List Nat
  verifyMutations : List MutationProof → Bytes → Bytes → Int → List Nat
  signMapRoot : SignedMapRoot → SignedMapRoot

/-- Monitor.VerifyEpochMutations (monitor.go lines 180 to 196): verify the
later epoch's response proofs, then verify that applying the mutation set to
epoch A's root yields epoch B's root. -/
def verifyEpochMutations (m : MonitorEnv) (epochA epochB : Epoch)
    (mutations : List MutationProof) : List Nat :=
  let errs1 := m.verifyEpoch epochB
  if errs1.length > 0 then errs1
  else
    let errs2 := m.verifyMutations mutations epochA.smr.rootHash
      epochB.smr.rootHash epochB.smr.mapId
    if errs2.length > 0 then errs2
    else []

/-- The body of Monitor.ProcessLoop's `for pair := range pairs` loop
(monitor.go lines 140 to 169), over the list of pairs delivered by the
channel; the store is the list of (revision, result) writes in order.  A
mutation-fetch failure aborts the loop; a verification failure is recorded
and the loop continues. -/
def processLoop (m : MonitorEnv) :
    List EpochPair → List (Int × MonitorResult) →
    Except Unit (List (Int × MonitorResult))
  | [], store => .ok store
  | pair :: rest, store =>
    match m.epochMutations pair.B with
    | .error e => .error e
    | .ok mutations =>
      let errs := verifyEpochMutations m pair.A pair.B mutations
      let res : MonitorResult :=
        if errs.length > 0 then { smr := none, errors := errs }
        else { smr := some (m.signMapRoot pair.B.smr), errors := [] }
      processLoop m rest (store ++ [(pair.B.smr.mapRevision, res)])

/-! ## Concrete instances used to evaluate the models -/

/-- A present response whose profile data is `[5]`. -/
def respProfile5 : GetEntryResponse :=
  { respAdvance with committed := some { key := [], data := [5] } }

/-- One final page carrying three epochs: an absent profile followed by two
equal present profiles. -/
def pagesComplete : List (Option PageResponse) :=
  [some { values := [respAdvance, respProfile5, respProfile5], nextStart := 0 }]

/-- A final page carrying a single epoch. -/
def pagesShort : List (Option PageResponse) :=
  [some { values := [respAdvance], nextStart := 0 }]

/-- An all-accepting mutation environment. -/
def envAll : EntryEnv :=
  { verifyKeysOk := fun _ _ _ _ => true, mutateOk := fun _ _ => true }

/-- A concrete signer. -/
def signer1 : Signer := { keyID := "k1", sign := fun _ => 42 }

/-- A concrete mutation under construction. -/
def mutation0 : Mutation :=
  { domainID := "dom", appID := "app", userID := "alice", data := [5],
    nonce := [6], prevEntry := none, entry := entry1 }

/-- A concrete attempt sequence: the first attempt asks for a retry, every
later attempt succeeds. -/
def att0 : Nat → AttemptResult := fun n => if n = 0 then .retry else .ok

/-- Concrete epochs at map revisions 2, 3 and 4. -/
def epochA0 : Epoch := { smr := smr0 }

/-- The epoch at revision 3; its SMR differs from revision 2's. -/
def epochB0 : Epoch :=
  { smr := { smr0 with mapRevision := 3, rootHash := [6] } }

/-- The epoch at revision 4. -/
def epochC0 : Epoch :=
  { smr := { smr0 with mapRevision := 4, rootHash := [2] } }

/-- A monitor environment whose epoch verification rejects exactly the epoch
at revision 3. -/
def monEnv0 : MonitorEnv :=
  { epochMutations := fun _ => .ok []
    verifyEpoch := fun ep => if ep.smr.mapRevision = 3 then [11] else []
    verifyMutations := fun _ _ _ _ => []
    signMapRoot := fun s => { s with signature := some [1] } }

/-- The two adjacent pairs (2,3) and (3,4). -/
def pairsW : List EpochPair :=
  [{ A := epochA0, B := epochB0 }, { A := epochB0, B := epochC0 }]

/-! ## Theorems -/

/-- Steps 3 to 7 never report a commitment mismatch: that error has a single
return site, inside step 2. -/
theorem verifyAfterCommitment_ne_commitmentMismatch (v : Verifier)
    (d a u : String) (t : SignedLogRoot) (resp : GetEntryResponse) :
    verifyAfterCommitment v d a u t resp ≠ .error .commitmentMismatch := by
  unfold verifyAfterCommitment
  repeat' split
  all_goals simp [ite_eq_iff]

/-- On success, every guard of steps 3 to 7 was true; in particular the log
consistency check accepted `resp.logRoot` and the log inclusion check ran on
the marshalled SMR at index `mapRevision` under `resp.logRoot`. -/
theorem verifyAfterCommitment_ok (v : Verifier) (d a u : String)
    (t : SignedLogRoot) (resp : GetEntryResponse)
    (h : verifyAfterCommitment v d a u t resp = .ok ()) :
    v.rootOk t resp.logRoot resp.logConsistency = true ∧
    v.inclusionAtIndexOk resp.logRoot (v.marshalSMR resp.smr)
        resp.smr.mapRevision resp.logInclusion = true := by
  unfold verifyAfterCommitment at h
  repeat' split at h
  all_goals simp_all

/-- Claim C1 (refuting the claimed update of the caller root): a concrete
run of VerifyGetEntryResponse that succeeds, on a response whose log root
differs from the caller's trusted root, leaves the caller's trusted root
equal to its old value rather than overwriting it with `response.log_root`:
`trusted = in.GetLogRoot()` (verify.go line 135) is a dead store to the
local copy of the pointer. -/
theorem verify_success_does_not_advance_trusted :
    (verifyGetEntryResponse trivVerifier "dom" "app" "alice" trusted0
        respAdvance).1 = .ok () ∧
    respAdvance.logRoot = some logRoot1 ∧
    trusted0 ≠ logRoot1 ∧
    (verifyGetEntryResponse trivVerifier "dom" "app" "alice" trusted0
        respAdvance).2 = trusted0 :=
  ⟨rfl, rfl, by decide, rfl⟩

/-- Claim C2: a call of VerifyGetEntryResponse that returns an error leaves
the caller-supplied trusted log root exactly as it was before the call. -/
theorem verify_error_leaves_trusted_unchanged (v : Verifier) (d a u : String)
    (t : SignedLogRoot) (resp : GetEntryResponse) (e : VerifyErr)
    (_h : (verifyGetEntryResponse v d a u t resp).1 = .error e) :
    (verifyGetEntryResponse v d a u t resp).2 = t := rfl

/-- Witness for claim C2: a response whose leaf bytes do not decode is
rejected and the trusted root is unchanged. -/
theorem verify_error_leaves_trusted_unchanged_witness :
    (verifyGetEntryResponse trivVerifier "dom" "app" "alice" trusted0
        respBadLeaf).1 = .error .decodeFailed ∧
    (verifyGetEntryResponse trivVerifier "dom" "app" "alice" trusted0
        respBadLeaf).2 = trusted0 :=
  ⟨rfl, verify_error_leaves_trusted_unchanged trivVerifier "dom" "app" "alice"
    trusted0 respBadLeaf .decodeFailed rfl⟩

/-- Claim C3 (counterexample): a response with `committed` absent whose leaf
decodes to a non-empty entry carrying an empty commitment field — which the
claim says must fail — passes VerifyGetEntryResponse. -/
theorem verify_absent_committed_counterexample :
    respPresentNoCommit.committed = none ∧
    trivVerifier.fromLeafValue respPresentNoCommit.leafValue =
        .ok (some entry1) ∧
    entry1.commitment = [] ∧
    entry1.authorizedKeys ≠ [] ∧
    (verifyGetEntryResponse trivVerifier "dom" "app" "alice" trusted0
        respPresentNoCommit).1 = .ok () :=
  ⟨rfl, rfl, rfl, by decide, rfl⟩

/-- Claim C3 (amended): when `committed` is absent, VerifyGetEntryResponse
skips commitment verification entirely — it never fails with
CommitmentMismatch and imposes no condition on the decoded leaf's commitment
field — and, once the leaf decodes, its result is exactly that of the
remaining verification steps. -/
theorem verify_absent_committed_skips_commitment (v : Verifier)
    (d a u : String) (t : SignedLogRoot) (resp : GetEntryResponse)
    (h : resp.committed = none) :
    (verifyGetEntryResponse v d a u t resp).1 ≠ .error .commitmentMismatch ∧
    (∀ e, v.fromLeafValue resp.leafValue = .ok e →
      (verifyGetEntryResponse v d a u t resp).1 =
        verifyAfterCommitment v d a u t resp) := by
  constructor
  · show verifyGetEntryResult v d a u t resp ≠ _
    unfold verifyGetEntryResult
    cases hd : v.fromLeafValue resp.leafValue with
    | error err => simp
    | ok e =>
      rw [h]
      exact verifyAfterCommitment_ne_commitmentMismatch v d a u t resp
  · intro e he
    show verifyGetEntryResult v d a u t resp = _
    unfold verifyGetEntryResult
    rw [he, h]

/-- Witness for the amended claim C3, at the concrete counterexample
response. -/
theorem verify_absent_committed_skips_commitment_witness :
    (verifyGetEntryResponse trivVerifier "dom" "app" "alice" trusted0
        respPresentNoCommit).1 ≠ .error .commitmentMismatch ∧
    (verifyGetEntryResponse trivVerifier "dom" "app" "alice" trusted0
        respPresentNoCommit).1 =
      verifyAfterCommitment trivVerifier "dom" "app" "alice" trusted0
        respPresentNoCommit :=
  ⟨(verify_absent_committed_skips_commitment trivVerifier "dom" "app" "alice"
      trusted0 respPresentNoCommit rfl).1,
   (verify_absent_committed_skips_commitment trivVerifier "dom" "app" "alice"
      trusted0 respPresentNoCommit rfl).2 (some entry1) rfl⟩

/-- Claim C4: when VerifyGetEntryResponse succeeds, the log consistency step
accepted `response.log_root`, and the final log inclusion check verified the
marshalled bytes of the response's SMR at leaf index `smr.map_revision`
within that accepted root. -/
theorem verify_log_inclusion_of_marshalled_smr (v : Verifier)
    (d a u : String) (t : SignedLogRoot) (resp : GetEntryResponse)
    (h : (verifyGetEntryResponse v d a u t resp).1 = .ok ()) :
    v.rootOk t resp.logRoot resp.logConsistency = true ∧
    v.inclusionAtIndexOk resp.logRoot (v.marshalSMR resp.smr)
        resp.smr.mapRevision resp.logInclusion = true := by
  replace h : verifyGetEntryResult v d a u t resp = .ok () := h
  unfold verifyGetEntryResult at h
  cases hd : v.fromLeafValue resp.leafValue with
  | error err => simp [hd] at h
  | ok e =>
    simp only [hd] at h
    cases hc : resp.committed with
    | none =>
      simp only [hc] at h
      exact verifyAfterCommitment_ok v d a u t resp h
    | some c =>
      simp only [hc] at h
      by_cases hcv : v.commitVerifyOk u a ((e.map Entry.commitment).getD [])
          c.data c.key = true
      · simp only [hcv, if_true] at h
        exact verifyAfterCommitment_ok v d a u t resp h
      · simp [hcv] at h

/-- Witness for claim C4, at a concrete successful response. -/
theorem verify_log_inclusion_of_marshalled_smr_witness :
    trivVerifier.rootOk trusted0 respAdvance.logRoot
        respAdvance.logConsistency = true ∧
    trivVerifier.inclusionAtIndexOk respAdvance.logRoot
        (trivVerifier.marshalSMR respAdvance.smr)
        respAdvance.smr.mapRevision respAdvance.logInclusion = true :=
  verify_log_inclusion_of_marshalled_smr trivVerifier "dom" "app" "alice"
    trusted0 respAdvance rfl

/-- Claim C5: SerializeAndSign succeeds exactly when the signature set it
just produced (over the new entry with the signatures field cleared) is
authorized against the previous entry's authorized keys and the local
dry-run Mutate accepts the mutation; it then emits the UpdateEntryRequest
carrying the signed entry and the committed (nonce, data) pair, and
otherwise returns an error and emits nothing. -/
theorem serializeAndSign_spec (m : Mutation) (env : EntryEnv)
    (signers : List Signer) (tts : Int) :
    (∀ req, m.serializeAndSign env signers tts = .ok req →
      env.verifyKeysOk m.prevAuthorizedKeys
          (m.signedEntry signers).authorizedKeys
          { m.signedEntry signers with signatures := [] }
          (m.signedEntry signers).signatures = true ∧
      env.mutateOk m.prevEntry (m.signedEntry signers) = true ∧
      req = { domainId := m.domainID, userId := m.userID, appId := m.appID,
              firstTreeSize := tts, mutation := m.signedEntry signers,
              committedKey := m.nonce, committedData := m.data }) ∧
    (env.verifyKeysOk m.prevAuthorizedKeys
          (m.signedEntry signers).authorizedKeys
          { m.signedEntry signers with signatures := [] }
          (m.signedEntry signers).signatures = true →
      env.mutateOk m.prevEntry (m.signedEntry signers) = true →
      m.serializeAndSign env signers tts =
        .ok { domainId := m.domainID, userId := m.userID, appId := m.appID,
              firstTreeSize := tts, mutation := m.signedEntry signers,
              committedKey := m.nonce, committedData := m.data }) := by
  constructor
  · intro req hreq
    simp only [Mutation.serializeAndSign] at hreq
    split at hreq
    · split at hreq
      · refine ⟨by assumption, by assumption, ?_⟩
        injection hreq with h3
        exact h3.symm
      · exact absurd hreq (by simp)
    · exact absurd hreq (by simp)
  · intro h1 h2
    simp only [Mutation.serializeAndSign]
    rw [if_pos h1, if_pos h2]

/-- Witness for claim C5: with an all-accepting environment, a concrete
mutation is serialized into the expected request. -/
theorem serializeAndSign_spec_witness :
    mutation0.serializeAndSign envAll [signer1] 7 =
      .ok { domainId := "dom", userId := "alice", appId := "app",
            firstTreeSize := 7, mutation := mutation0.signedEntry [signer1],
            committedKey := [6], committedData := [5] } :=
  (serializeAndSign_spec mutation0 envAll [signer1] 7).2 rfl rfl

/-- Claim C6: ReplaceAuthorizedKeys fails with MissingKey exactly on an
empty key list, leaving the builder state unchanged, and otherwise replaces
the entry's authorized keys with the given list and succeeds. -/
theorem replaceAuthorizedKeys_spec (m : Mutation) (pubkeys : List PubKey) :
    m.replaceAuthorizedKeys pubkeys =
      if pubkeys = [] then (.error .missingKey, m)
      else (.ok (),
        { m with entry := { m.entry with authorizedKeys := pubkeys } }) := by
  unfold Mutation.replaceAuthorizedKeys
  cases pubkeys <;> simp

/-- The retry loop, characterized from any reachable state: the final result
is that of the last attempt made, every earlier attempt returned the Retry
sentinel, and the loop runs to the retry bound exactly when the final result
is still Retry. -/
theorem updateLoopAux_spec (attempt : Nat → AttemptResult) (retryCount : Int) :
    ∀ (fuel i : Nat), retryCount ≤ (i : Int) + fuel →
      (updateLoopAux attempt retryCount fuel i (attempt i)).1 =
          attempt (updateLoopAux attempt retryCount fuel i (attempt i)).2 ∧
      i ≤ (updateLoopAux attempt retryCount fuel i (attempt i)).2 ∧
      ((updateLoopAux attempt retryCount fuel i (attempt i)).2 : Int) ≤
          max retryCount i ∧
      (∀ j, i ≤ j →
        j < (updateLoopAux attempt retryCount fuel i (attempt i)).2 →
        attempt j = .retry) ∧
      ((updateLoopAux attempt retryCount fuel i (attempt i)).1 = .retry →
        ((updateLoopAux attempt retryCount fuel i (attempt i)).2 : Int) =
          max retryCount i) := by
  intro fuel
  induction fuel with
  | zero =>
    intro i hfuel
    unfold updateLoopAux
    dsimp only
    refine ⟨rfl, Nat.le_refl i, by omega, ?_, ?_⟩
    · intro j hij hji
      exact absurd hji (by omega)
    · intro _
      omega
  | succ n ih =>
    intro i hfuel
    unfold updateLoopAux
    by_cases hc : attempt i = .retry ∧ (i : Int) < retryCount
    · rw [if_pos hc]
      obtain ⟨e1, e2, e3, e4, e5⟩ := ih (i + 1) (by omega)
      refine ⟨e1, by omega, by omega, ?_, ?_⟩
      · intro j hij hj
        by_cases hji : i + 1 ≤ j
        · exact e4 j hji hj
        · have hje : j = i := by omega
          rw [hje]
          exact hc.1
      · intro hret
        have := e5 hret
        have := hc.2
        omega
    · rw [if_neg hc]
      dsimp only
      refine ⟨rfl, Nat.le_refl i, by omega, ?_, ?_⟩
      · intro j hij hji
        exact absurd hji (by omega)
      · intro hret
        have hnlt : ¬ ((i : Int) < retryCount) := fun hlt => hc ⟨hret, hlt⟩
        omega

/-- Claim C7: after the initial attempt, Client.Update re-submits at most
RetryCount additional times (each re-attempt preceded by one RetryDelay
sleep, counted by the second component), continues only while the previous
attempt returned exactly the Retry sentinel, returns the first non-Retry
result immediately, and exhausts the bound exactly when every attempt
returned Retry. -/
theorem update_retry_spec (attempt : Nat → AttemptResult) (retryCount : Int) :
    (clientUpdate attempt retryCount).1 =
        attempt (clientUpdate attempt retryCount).2 ∧
    ((clientUpdate attempt retryCount).2 : Int) ≤ max retryCount 0 ∧
    (∀ j, j < (clientUpdate attempt retryCount).2 → attempt j = .retry) ∧
    ((clientUpdate attempt retryCount).1 = .retry →
      ((clientUpdate attempt retryCount).2 : Int) = max retryCount 0) := by
  obtain ⟨e1, _, e3, e4, e5⟩ :=
    updateLoopAux_spec attempt retryCount retryCount.toNat 0 (by omega)
  exact ⟨e1, by simpa using e3, fun j hj => e4 j (Nat.zero_le j) hj,
    fun hr => by simpa using e5 hr⟩

/-- Witness for claim C7: with one retry followed by success and a retry
budget of 2, the loop stops after a single re-attempt with the success. -/
theorem update_retry_spec_witness :
    att0 0 = AttemptResult.retry ∧
    (clientUpdate att0 2).1 = AttemptResult.ok ∧
    (clientUpdate att0 2).2 = 1 :=
  ⟨(update_retry_spec att0 2).2.2.1 0 (by decide), by decide, by decide⟩

/-- changePoints of the empty stream. -/
theorem changePoints_nil (cur : Bytes) : changePoints cur [] = [] := rfl

/-- changePoints of a cons: skip an unchanged profile, emit a changed one. -/
theorem changePoints_cons (cur : Bytes) (s : SignedMapRoot) (p : Bytes)
    (l : List (SignedMapRoot × Bytes)) :
    changePoints cur ((s, p) :: l) =
      if p = cur then changePoints cur l else (s, p) :: changePoints p l := rfl

/-- The running profile after a cons. -/
theorem runningProfile_cons (cur : Bytes) (s : SignedMapRoot) (p : Bytes)
    (l : List (SignedMapRoot × Bytes)) :
    runningProfile cur ((s, p) :: l) = runningProfile p l := rfl

/-- changePoints distributes over append, threading the running profile. -/
theorem changePoints_append (l1 : List (SignedMapRoot × Bytes)) :
    ∀ (cur : Bytes) (l2 : List (SignedMapRoot × Bytes)),
      changePoints cur (l1 ++ l2) =
        changePoints cur l1 ++ changePoints (runningProfile cur l1) l2 := by
  induction l1 with
  | nil => intro cur l2; simp [changePoints, runningProfile]
  | cons sp rest ih =>
    intro cur l2
    obtain ⟨s, p⟩ := sp
    rw [List.cons_append, changePoints_cons, changePoints_cons,
      runningProfile_cons]
    by_cases hp : p = cur
    · rw [if_pos hp, if_pos hp, ih cur l2, hp]
    · rw [if_neg hp, if_neg hp, ih p l2, List.cons_append]

/-- When every value of a page verifies, the inner loop returns the running
profile and appends exactly the change points of the page's profile
stream. -/
theorem processValues_ok (v : Verifier) (d a u : String) (t : SignedLogRoot) :
    ∀ (values : List GetEntryResponse) (cur : Bytes)
      (profs : List (SignedMapRoot × Bytes)),
      allVerify v d a u t values = true →
      processValues v d a u t values cur profs =
        .ok (runningProfile cur (values.map fun r => (r.smr, epochProfile r)),
          profs ++ changePoints cur
            (values.map fun r => (r.smr, epochProfile r))) := by
  intro values
  induction values with
  | nil =>
    intro cur profs _
    simp [processValues, runningProfile, changePoints]
  | cons r rest ih =>
    intro cur profs hall
    cases hv : (verifyGetEntryResponse v d a u t r).1 with
    | error e => simp [allVerify, hv] at hall
    | ok un =>
      simp only [allVerify, hv] at hall
      simp only [processValues, hv, List.map_cons, changePoints_cons,
        runningProfile_cons]
      by_cases hp : epochProfile r = cur
      · rw [if_pos hp, if_pos hp, ih cur profs hall, hp]
      · rw [if_neg hp, if_neg hp,
          ih (epochProfile r) (profs ++ [(r.smr, epochProfile r)]) hall]
        simp

/-- Characterization of the paging loop on a good run: it returns
Incomplete exactly when it stops having received fewer than `want` epochs,
and otherwise the collected pairs are the change points of the consumed
epoch stream. -/
theorem listHistoryLoop_char (v : Verifier) (d a u : String)
    (t : SignedLogRoot) (want : Int) :
    ∀ (pages : List (Option PageResponse)) (received : Int) (cur : Bytes)
      (profs : List (SignedMapRoot × Bytes)),
      goodPages v d a u t want pages received = true →
      listHistoryLoop v d a u t want pages received cur profs =
        (if consumedCount want pages received < want then
          Except.error HistErr.incomplete
         else
          Except.ok (profs ++ changePoints cur
            ((consumedValues want pages received).map
              fun r => (r.smr, epochProfile r)))) := by
  intro pages
  induction pages with
  | nil =>
    intro received cur profs hg
    simp only [goodPages] at hg
    by_cases hr : received < want
    · rw [if_pos hr] at hg; exact absurd hg (by simp)
    · simp [listHistoryLoop, consumedCount, consumedValues, hr, changePoints]
  | cons page rest ih =>
    cases page with
    | none =>
      intro received cur profs hg
      simp only [goodPages] at hg
      by_cases hr : received < want
      · rw [if_pos hr] at hg; exact absurd hg (by simp)
      · simp [listHistoryLoop, consumedCount, consumedValues, hr, changePoints]
    | some pg =>
      intro received cur profs hg
      simp only [goodPages] at hg
      by_cases hr : received < want
      · rw [if_pos hr] at hg
        rw [Bool.and_eq_true] at hg
        obtain ⟨hall, hrest⟩ := hg
        simp only [listHistoryLoop, if_pos hr,
          processValues_ok v d a u t pg.values cur profs hall]
        by_cases hns : pg.nextStart = 0
        · simp only [consumedCount, consumedValues, if_pos hr, if_pos hns]
          simp
        · rw [if_neg hns] at hrest
          simp only [if_neg hns]
          rw [ih (received + (pg.values.length : Int))
            (runningProfile cur (pg.values.map fun r => (r.smr, epochProfile r)))
            (profs ++ changePoints cur
              (pg.values.map fun r => (r.smr, epochProfile r))) hrest]
          simp only [consumedCount, consumedValues, if_pos hr, if_neg hns]
          by_cases hC : consumedCount want rest
              (received + (pg.values.length : Int)) < want
          · rw [if_pos hC, if_pos hC]
          · rw [if_neg hC, if_neg hC]
            simp [List.map_append, changePoints_append, List.append_assoc]
      · simp [listHistoryLoop, consumedCount, consumedValues, hr, changePoints]

/-- Claim C8: on a run with no transport or verification failure,
ListHistory returns Incomplete exactly when the paging stopped before
end - start + 1 epochs were received, and returns the collected profile map
when the requested range was fully received. -/
theorem listHistory_incomplete_spec (v : Verifier) (d a u : String)
    (t : SignedLogRoot) (start endEpoch : Int)
    (pages : List (Option PageResponse))
    (h0 : 0 ≤ start)
    (hg : goodPages v d a u t (endEpoch - start + 1) pages 0 = true) :
    (listHistory v d a u t start endEpoch pages = .error .incomplete ↔
      consumedCount (endEpoch - start + 1) pages 0 < endEpoch - start + 1) ∧
    (endEpoch - start + 1 ≤ consumedCount (endEpoch - start + 1) pages 0 →
      listHistory v d a u t start endEpoch pages =
        .ok (changePoints []
          ((consumedValues (endEpoch - start + 1) pages 0).map
            fun r => (r.smr, epochProfile r)))) := by
  unfold listHistory
  rw [if_neg (by omega)]
  rw [listHistoryLoop_char v d a u t (endEpoch - start + 1) pages 0 [] [] hg]
  by_cases hlt : consumedCount (endEpoch - start + 1) pages 0 <
      endEpoch - start + 1
  · rw [if_pos hlt]
    exact ⟨⟨fun _ => hlt, fun _ => rfl⟩, fun hge => absurd hlt (by omega)⟩
  · rw [if_neg hlt]
    exact ⟨⟨fun hcontra => absurd hcontra (by simp),
      fun hl => absurd hl hlt⟩, fun _ => by simp⟩

/-- Witness for claim C8: a single final page carrying the three requested
epochs yields the fully-received case. -/
theorem listHistory_incomplete_spec_witness :
    listHistory trivVerifier "dom" "app" "alice" trusted0 0 2 pagesComplete =
      .ok (changePoints []
        ((consumedValues (2 - 0 + 1) pagesComplete 0).map
          fun r => (r.smr, epochProfile r))) :=
  (listHistory_incomplete_spec trivVerifier "dom" "app" "alice" trusted0 0 2
    pagesComplete (by decide) (by decide)).2 (by decide)

/-- Claim C10: on a good, complete run, the profile map ListHistory returns
is exactly the change points of the consumed epoch stream: consecutive
byte-equal profiles (including the leading absent profiles, equal to the
initial nil profile) contribute nothing. -/
theorem listHistory_profiles_are_change_points (v : Verifier)
    (d a u : String) (t : SignedLogRoot) (start endEpoch : Int)
    (pages : List (Option PageResponse))
    (profs : List (SignedMapRoot × Bytes))
    (h0 : 0 ≤ start)
    (hg : goodPages v d a u t (endEpoch - start + 1) pages 0 = true)
    (hok : listHistory v d a u t start endEpoch pages = .ok profs) :
    profs = changePoints []
      ((consumedValues (endEpoch - start + 1) pages 0).map
        fun r => (r.smr, epochProfile r)) := by
  unfold listHistory at hok
  rw [if_neg (by omega)] at hok
  rw [listHistoryLoop_char v d a u t (endEpoch - start + 1) pages 0 [] [] hg]
    at hok
  by_cases hlt : consumedCount (endEpoch - start + 1) pages 0 <
      endEpoch - start + 1
  · rw [if_pos hlt] at hok
    exact absurd hok (by simp)
  · rw [if_neg hlt] at hok
    injection hok with h3
    rw [← h3]
    simp

/-- Witness for claim C10: the three-epoch page with an absent profile
followed by two equal present profiles collapses to a single pair. -/
theorem listHistory_profiles_are_change_points_witness :
    [(smr0, [5])] = changePoints []
      ((consumedValues (2 - 0 + 1) pagesComplete 0).map
        fun r => (r.smr, epochProfile r)) :=
  listHistory_profiles_are_change_points trivVerifier "dom" "app" "alice"
    trusted0 0 2 pagesComplete [(smr0, [5])] (by decide) (by decide) rfl

/-- Claim C9: when every mutation fetch succeeds, the monitor loop stores,
in order, exactly one result per adjacent pair, keyed by the later epoch's
map revision: the countersigned SMR with an empty error list when
verification passes, and a nil SMR with the error list when it fails — and
in the latter case the loop continues with the later pairs. -/
theorem processLoop_stores_one_result_per_pair (m : MonitorEnv)
    (muts : EpochPair → List MutationProof) :
    ∀ (pairs : List EpochPair) (store : List (Int × MonitorResult)),
      (∀ p, p ∈ pairs → m.epochMutations p.B = .ok (muts p)) →
      processLoop m pairs store = .ok (store ++ pairs.map fun p =>
        (p.B.smr.mapRevision,
         if (verifyEpochMutations m p.A p.B (muts p)).length > 0 then
           { smr := none, errors := verifyEpochMutations m p.A p.B (muts p) }
         else
           { smr := some (m.signMapRoot p.B.smr), errors := [] })) := by
  intro pairs
  induction pairs with
  | nil => intro store _; simp [processLoop]
  | cons p rest ih =>
    intro store hall
    have hp := hall p (by simp)
    simp only [processLoop, hp, List.map_cons]
    rw [ih _ (fun q hq => hall q (by simp [hq]))]
    simp

/-- Witness for claim C9: two adjacent pairs, the first failing epoch
verification and the second passing; both results are stored and the loop
runs to completion. -/
theorem processLoop_stores_one_result_per_pair_witness :
    processLoop monEnv0 pairsW [] = .ok ([] ++ pairsW.map fun p =>
      (p.B.smr.mapRevision,
       if (verifyEpochMutations monEnv0 p.A p.B []).length > 0 then
         { smr := none, errors := verifyEpochMutations monEnv0 p.A p.B [] }
       else
         { smr := some (monEnv0.signMapRoot p.B.smr), errors := [] })) :=
  processLoop_stores_one_result_per_pair monEnv0 (fun _ => []) pairsW []
    (fun _ _ => rfl)

end KT
